import Mathlib

/-!
# fuji: a single-slot relay for the tip stream

A shallow embedding of `main.go`.  The program is glue between four libraries
(`encoding/json`, the in-memory expiring store, the websocket connection and the
HTTP framework).  The three closures of `main` are embedded as functions:

* `handleGet`   : the `GET /` handler (lines 47-70);
* `readIteration`, `readLoop` : the feed goroutine (lines 93-122);
* `coordinatorStep`, `coordinator` : the `select` loop that ends `main` (lines 124-144).

Library calls whose code is not in the sources are explicit: `encoding/json` is a
parameter (`JSON`), the results of `ReadMessage` and `WriteMessage` are inputs
(`FeedEvent`, the argument of `CoordEvent.interrupt`), the wall clock is an
argument `now` (nanoseconds), and the store follows the contract the
specification gives for it.
-/

namespace Fuji

set_option maxRecDepth 10000

/-! ## Data model -/

deriving instance DecidableEq for Except

/-- Go `float64`, kept as its IEEE-754 bit pattern: the program stores and copies
these values and never computes with them. -/
structure Float64 where
  bits : Nat
deriving DecidableEq, Repr

/-- Go `[]byte`.  Payloads are only handed from one library call to the next
(`string(message[:])` followed by `[]byte(str_message)` is the identity), so the
text of the payload stands for its bytes. -/
abbrev Bytes := String

/-- The record type `Bundle` (lines 19-26). -/
structure Bundle where
  Time : String
  LandedTips25thPercentile : Float64
  LandedTips50thPercentile : Float64
  LandedTips75thPercentile : Float64
  LandedTips95thPercentile : Float64
  LandedTips99thPercentile : Float64
deriving DecidableEq, Repr

/-- The annotation block `Information` (lines 28-33). -/
structure Information where
  Repository : String
  Author : String
  Language : String
  SubscribedTo : String
deriving DecidableEq, Repr

/-- The type `BundleResponse` (lines 35-38): an embedded `Bundle` and the annotations. -/
structure BundleResponse extends Bundle where
  Annotations : Information
deriving DecidableEq, Repr

/-- The default of the `addr` flag (line 17). -/
def addr : String := "bundles-api-rest.jito.wtf"

/-! ## Durations (package `time`) -/

namespace time

/-- A `time.Duration`, counted in nanoseconds. -/
abbrev Duration := Nat

/-- The constant `time.Second`. -/
def Second : Duration := 1000000000

/-- The constant `time.Minute`. -/
def Minute : Duration := 60 * Second

end time

/-! ## `encoding/json`, as the program uses it -/

/-- The three uses `main` makes of `encoding/json`; a Go `error` is carried as
its message. -/
structure JSON where
  /-- Use `json.Unmarshal(bytes, &data)` with `data []Bundle` (line 106). -/
  UnmarshalBundles : Bytes → Except String (List Bundle)
  /-- Use `json.Unmarshal(cached, &data)` with `data Bundle` (line 56). -/
  UnmarshalBundle : Bytes → Except String Bundle
  /-- Use `json.Marshal(data[0])` (line 113). -/
  Marshal : Bundle → Except String Bytes

/-! ## The expiring store -/

namespace memory

/-- Modelled from the spec: a Cache Entry of the store (package
`github.com/gofiber/storage/memory/v2`, which is not among the sources): a key, a
serialized payload and an expiration instant. -/
structure Entry where
  key : String
  payload : Bytes
  expiration : Nat
deriving DecidableEq, Repr

/-- Modelled from the spec: the Expiring Store of section 4.1 (the library type
`memory.Storage`, not among the sources), as the entries it physically holds. -/
structure Storage where
  entries : List Entry
deriving DecidableEq, Repr

/-- Modelled from the spec: the `NotFound` condition with which `get` fails; the
library's message text is not among the sources. -/
def ErrNotFound : String := "NotFound"

/-- Modelled from the spec: `memory.New` (line 43), a store that holds nothing yet. -/
def New : Storage := ⟨[]⟩

/-- Modelled from the spec: `set(key, payload, ttl)` stores the payload under the
key, replacing any prior value, and schedules expiration at `now + ttl`. -/
def Storage.Set (s : Storage) (key : String) (val : Bytes) (exp : time.Duration)
    (now : Nat) : Storage :=
  ⟨⟨key, val, now + exp⟩ :: s.entries.filter (fun e => e.key ≠ key)⟩

/-- Modelled from the spec: `get(key)` returns the stored payload if present and
not expired, and otherwise fails with `NotFound`. -/
def Storage.Get (s : Storage) (key : String) (now : Nat) : Except String Bytes :=
  match s.entries.find? (fun e => e.key = key) with
  | some e => if now < e.expiration then .ok e.payload else .error ErrNotFound
  | none => .error ErrNotFound

/-- Modelled from the spec: one run of the background reclamation at instant
`now`, which physically discards the expired entries. -/
def Storage.reclaim (s : Storage) (now : Nat) : Storage :=
  ⟨s.entries.filter (fun e => now < e.expiration)⟩

/-- Modelled from the spec: the live entries at instant `now`, those whose
expiration instant has not been reached. -/
def Storage.live (s : Storage) (now : Nat) : List Entry :=
  s.entries.filter (fun e => now < e.expiration)

end memory

/-! ## The query handler -/

/-- Modelled from the spec: the default success status, which a handler that
calls `c.JSON` without `c.Status` leaves in place (the HTTP framework is not
among the sources). -/
def StatusOK : Nat := 200

/-- The JSON value a handler sends: a `map[string]string` or a `BundleResponse`. -/
inductive Body where
  | errorMap (fields : List (String × String))
  | bundle (r : BundleResponse)
deriving DecidableEq, Repr

/-- The names of the top-level fields of a body, from the map keys and from the
`json` tags of `Bundle` and `BundleResponse`. -/
def Body.fieldNames : Body → List String
  | .errorMap fields => fields.map Prod.fst
  | .bundle _ =>
    ["time", "landed_tips_25th_percentile", "landed_tips_50th_percentile",
      "landed_tips_75th_percentile", "landed_tips_95th_percentile",
      "landed_tips_99th_percentile", "annotations"]

/-- What a handler leaves in the `fiber.Ctx`: a status and a JSON body. -/
structure Response where
  status : Nat
  body : Body
deriving DecidableEq, Repr

/-- A status of the success class (2xx). -/
def Response.isSuccess (r : Response) : Bool :=
  decide (200 ≤ r.status) && decide (r.status < 300)

/-- The handler registered with `app.Get("/", ...)` (lines 47-70), run against the
store at instant `now`. -/
def handleGet (J : JSON) (store : memory.Storage) (now : Nat) : Response :=
  match store.Get "current" now with
  | .error err =>
    ⟨500, .errorMap [("error", err), ("description", "Could not get the cached data. Probably the program did not have enough time to write the data to the cache.")]⟩
  | .ok cached =>
    match J.UnmarshalBundle cached with
    | .error err =>
      ⟨500, .errorMap [("error", err), ("description", "Could not parse the cached data. Probably the program did not have enough time to write the data to the cache.")]⟩
    | .ok data =>
      ⟨StatusOK, .bundle
        ⟨data, ⟨"https://github.com/kyee-rs/fuji", "Dutch (@devkyee on TG)", "Go",
          "ws://bundles-api-rest.jito.wtf/api/v1/bundles/tip_stream"⟩⟩⟩

/-! ## The upstream address -/

/-- The fields of `url.URL` that line 81 sets. -/
structure URL where
  Scheme : String
  Host : String
  Path : String
deriving DecidableEq, Repr

/-- The method `URL.String` on the URL of line 81: a scheme, a host name of
letters, digits, dots and hyphens, and an absolute path.  Nothing in them is
escaped and the text is `scheme://host/path`. -/
def URL.String (u : URL) : String :=
  u.Scheme ++ "://" ++ u.Host ++ u.Path

/-- The value of `*addr` when line 81 reads it, in a process started with the
command line `args`.  Line 17 registers the flag with its default and `main`
never calls `flag.Parse`, so the command line is not read and the value is the
default. -/
def addrValue (_args : List String) : String := addr

/-- The URL `u` of line 81, the one handed to `Dial` at line 84. -/
def dialURL (args : List String) : URL :=
  ⟨"ws", addrValue args, "/api/v1/bundles/tip_stream"⟩

/-! ## The feed read loop -/

/-- What one call of `c.ReadMessage()` returns: an error or a message. -/
inductive FeedEvent where
  | readError (err : String)
  | message (payload : Bytes)
deriving DecidableEq, Repr

/-- The three `return` statements of the read loop, each with the error it logs. -/
inductive LoopExit where
  | read (err : String)
  | parse (err : String)
  | marshal (err : String)
deriving DecidableEq, Repr

/-- How one pass through the body of the `for` loop ends. -/
inductive Iteration where
  /-- The pass reached `store.Set` and the loop goes round again. -/
  | next (store : memory.Storage)
  /-- The pass hit a `return`. -/
  | exit (why : LoopExit)
  /-- The index expression `data[0]` was out of range: a run-time panic. -/
  | panic
deriving DecidableEq, Repr

/-- One pass through the body of the `for` loop (lines 96-120) on the result
`ev` of `ReadMessage`, arriving at instant `now`. -/
def readIteration (J : JSON) (store : memory.Storage) (now : Nat) : FeedEvent → Iteration
  | .readError err => .exit (.read err)
  | .message message =>
    match J.UnmarshalBundles message with
    | .error err => .exit (.parse err)
    | .ok data =>
      match data[0]? with
      | none => .panic
      | some first =>
        match J.Marshal first with
        | .error err => .exit (.marshal err)
        | .ok bytes => .next (store.Set "current" bytes (time.Minute * 5) now)

/-- The goroutine's state once the given events have been offered to it. -/
structure LoopState where
  /-- The store as the loop left it. -/
  store : memory.Storage
  /-- Whether the channel `done` has been closed (the deferred `close(done)`). -/
  done : Bool
  /-- Whether the goroutine died of a panic, which takes the process down. -/
  crashed : Bool
  /-- The events the loop never read. -/
  unread : List (Nat × FeedEvent)
deriving DecidableEq, Repr

/-- The goroutine of lines 93-122 on a stream of timed results of `ReadMessage`.
With the stream used up the loop is blocked in `ReadMessage` and `done` is open. -/
def readLoop (J : JSON) (store : memory.Storage) : List (Nat × FeedEvent) → LoopState
  | [] => ⟨store, false, false, []⟩
  | (now, ev) :: rest =>
    match readIteration J store now ev with
    | .next store' => readLoop J store' rest
    | .exit _ => ⟨store, true, false, rest⟩
    | .panic => ⟨store, true, true, rest⟩

/-! ## The lifecycle coordinator -/

/-- Where `main` stands in its final loop: in the outer `select`, in the inner
`select` whose timer fires at `deadline`, or returned. -/
inductive CoordState where
  | Running
  | Draining (deadline : Nat)
  | Stopped
deriving DecidableEq, Repr

/-- What can wake the coordinator: `done` is closed, an interrupt is delivered
(with the error, if any, that the `WriteMessage` it triggers returns), or the
timer of `time.After` fires. -/
inductive CoordEvent where
  | done
  | interrupt (writeErr : Option String)
  | timeout
deriving DecidableEq, Repr

/-- What the coordinator does to the outside. -/
inductive Action where
  | logInterrupt
  | writeClose
  | logWriteClose (err : String)
deriving DecidableEq, Repr

/-- One wake-up of the coordinator at instant `now` (lines 124-144). -/
def coordinatorStep (now : Nat) : CoordState → CoordEvent → CoordState × List Action
  | .Running, .done => (.Stopped, [])
  | .Running, .interrupt (some err) =>
    (.Stopped, [.logInterrupt, .writeClose, .logWriteClose err])
  | .Running, .interrupt none =>
    (.Draining (now + time.Second), [.logInterrupt, .writeClose])
  | .Running, .timeout => (.Running, [])
  | .Draining _, .done => (.Stopped, [])
  | .Draining deadline, .timeout =>
    if deadline ≤ now then (.Stopped, []) else (.Draining deadline, [])
  | .Draining deadline, .interrupt _ => (.Draining deadline, [])
  | .Stopped, _ => (.Stopped, [])

/-- The coordinator on a sequence of timed wake-ups: the state reached and the
actions taken, in order. -/
def coordinator (s : CoordState) : List (Nat × CoordEvent) → CoordState × List Action
  | [] => (s, [])
  | (now, ev) :: rest =>
    let r := coordinatorStep now s ev
    let r' := coordinator r.1 rest
    (r'.1, r.2 ++ r'.2)

/-! ## Worked examples

Concrete records and texts on which the definitions above can be evaluated. -/

/-- The record of scenario B: time label `T1`, percentile values 1.0 to 5.0. -/
def recordT1 : Bundle :=
  ⟨"T1", ⟨0x3FF0000000000000⟩, ⟨0x4000000000000000⟩, ⟨0x4008000000000000⟩,
    ⟨0x4010000000000000⟩, ⟨0x4014000000000000⟩⟩

/-- A second record: time label `T2`, percentile values 2.0 to 6.0. -/
def recordT2 : Bundle :=
  ⟨"T2", ⟨0x4000000000000000⟩, ⟨0x4008000000000000⟩, ⟨0x4010000000000000⟩,
    ⟨0x4014000000000000⟩, ⟨0x4018000000000000⟩⟩

/-- The JSON text of `recordT1`. -/
def textT1 : Bytes :=
  "\x7b\"time\":\"T1\",\"landed_tips_25th_percentile\":1,\"landed_tips_50th_percentile\":2,\"landed_tips_75th_percentile\":3,\"landed_tips_95th_percentile\":4,\"landed_tips_99th_percentile\":5\x7d"

/-- The JSON text of `recordT2`. -/
def textT2 : Bytes :=
  "\x7b\"time\":\"T2\",\"landed_tips_25th_percentile\":2,\"landed_tips_50th_percentile\":3,\"landed_tips_75th_percentile\":4,\"landed_tips_95th_percentile\":5,\"landed_tips_99th_percentile\":6\x7d"

/-- A finite excerpt of `encoding/json`: its results on the texts and records of
the worked examples.  Whatever lies outside the excerpt is reported as an error. -/
def exampleJSON : JSON where
  UnmarshalBundles := fun b =>
    if b = "[]" ∨ b = "null" then .ok []
    else if b = "[" ++ textT1 ++ "]" then .ok [recordT1]
    else if b = "[" ++ textT2 ++ "]" then .ok [recordT2]
    else if b = "[" ++ textT1 ++ "," ++ textT2 ++ "]" then .ok [recordT1, recordT2]
    else .error "invalid character"
  UnmarshalBundle := fun b =>
    if b = textT1 then .ok recordT1
    else if b = textT2 then .ok recordT2
    else .error "invalid character"
  Marshal := fun r =>
    if r = recordT1 then .ok textT1
    else if r = recordT2 then .ok textT2
    else .error "outside the excerpt"

/-! ## The store: consequences of its contract -/

theorem memory.Storage.Get_Set (s : memory.Storage) (key : String) (val : Bytes)
    (exp : time.Duration) (now t : Nat) :
    (s.Set key val exp now).Get key t =
      if t < now + exp then .ok val else .error memory.ErrNotFound := by
  simp [memory.Storage.Set, memory.Storage.Get]

theorem memory.Storage.Set_filter (s : memory.Storage) (key : String) (val : Bytes)
    (exp : time.Duration) (now : Nat) :
    (s.Set key val exp now).entries.filter (fun e => e.key = key) = [⟨key, val, now + exp⟩] := by
  simp [memory.Storage.Set, List.filter_cons, List.filter_filter]

theorem memory.Storage.Get_reclaim (s : memory.Storage) (key : String) (g now : Nat)
    (hg : g ≤ now)
    (huniq : (s.entries.filter (fun e => e.key = key)).length ≤ 1) :
    (s.reclaim g).Get key now = s.Get key now := by
  obtain ⟨l⟩ := s
  simp only [memory.Storage.reclaim, memory.Storage.Get] at huniq ⊢
  induction l with
  | nil => simp
  | cons e l ih =>
    by_cases hk : e.key = key
    · have hnone : (l.filter (fun e => e.key = key)) = [] := by
        simp only [List.filter_cons, hk, decide_True, if_true, List.length_cons] at huniq
        exact List.length_eq_zero.mp (by omega)
      have hl : ∀ x ∈ l, ¬ x.key = key := by
        intro x hx hxk
        have : x ∈ l.filter (fun e => e.key = key) := by simp [List.mem_filter, hx, hxk]
        rw [hnone] at this
        exact (List.not_mem_nil _ this)
      have hf : (l.filter (fun e => g < e.expiration)).find? (fun e => e.key = key) = none := by
        simp only [List.find?_eq_none, List.mem_filter, decide_eq_true_eq]
        intro x hx
        exact hl x hx.1
      by_cases hlive : g < e.expiration
      · simp [List.filter_cons, hlive, List.find?_cons, hk]
      · have hexp : ¬ now < e.expiration := by omega
        simp [List.filter_cons, hlive, List.find?_cons, hk, hf, hexp]
    · have hu : (l.filter (fun e => e.key = key)).length ≤ 1 := by
        simpa [List.filter_cons, hk] using huniq
      by_cases hlive : g < e.expiration
      · simpa [List.filter_cons, hlive, List.find?_cons, hk] using ih hu
      · simpa [List.filter_cons, hlive, List.find?_cons, hk] using ih hu

theorem memory.Storage.reclaim_uniq (s : memory.Storage) (key : String) (g : Nat)
    (huniq : (s.entries.filter (fun e => e.key = key)).length ≤ 1) :
    ((s.reclaim g).entries.filter (fun e => e.key = key)).length ≤ 1 := by
  have hsub : ((s.reclaim g).entries.filter (fun e => e.key = key)).Sublist
      (s.entries.filter (fun e => e.key = key)) :=
    List.Sublist.filter _ (List.filter_sublist _)
  exact le_trans hsub.length_le huniq

theorem memory.Storage.Get_reclaims (gs : List Nat) (s : memory.Storage) (key : String)
    (now : Nat) (hg : ∀ g ∈ gs, g ≤ now)
    (huniq : (s.entries.filter (fun e => e.key = key)).length ≤ 1) :
    (gs.foldl memory.Storage.reclaim s).Get key now = s.Get key now := by
  induction gs generalizing s with
  | nil => rfl
  | cons g gs ih =>
    rw [List.foldl_cons,
      ih (s.reclaim g) (fun x hx => hg x (List.mem_cons_of_mem _ hx))
        (memory.Storage.reclaim_uniq s key g huniq)]
    exact memory.Storage.Get_reclaim s key g now (hg g (List.mem_cons_self _ _)) huniq

/-! ## The feed read loop -/

/-- C1 (batch-head policy).  When the inbound message decodes to the non-empty
batch `R0 :: rest` and `enc` is the encoding of `R0`, one pass of the read loop
ends in `store.Set("current", enc, 5 min)`: afterwards the store holds under
`"current"` exactly one entry, with payload `enc`, and a read of `"current"` at
that instant returns `enc`.  Any other message with the same first record gives
the same result, whatever records follow the first. -/
theorem batch_head_policy (J : JSON) (store : memory.Storage) (now : Nat) (msg : Bytes)
    (R0 : Bundle) (rest : List Bundle) (enc : Bytes)
    (hdec : J.UnmarshalBundles msg = .ok (R0 :: rest))
    (henc : J.Marshal R0 = .ok enc) :
    readIteration J store now (.message msg)
        = .next (store.Set "current" enc (time.Minute * 5) now) ∧
      (store.Set "current" enc (time.Minute * 5) now).entries.filter
          (fun e => e.key = "current") = [⟨"current", enc, now + time.Minute * 5⟩] ∧
      (store.Set "current" enc (time.Minute * 5) now).Get "current" now = .ok enc ∧
      ∀ (msg' : Bytes) (rest' : List Bundle), J.UnmarshalBundles msg' = .ok (R0 :: rest') →
        readIteration J store now (.message msg') = readIteration J store now (.message msg) := by
  refine ⟨?_, ?_, ?_, ?_⟩
  · simp [readIteration, hdec, henc]
  · exact memory.Storage.Set_filter store "current" enc (time.Minute * 5) now
  · rw [memory.Storage.Get_Set]
    simp [time.Minute, time.Second]
  · intro msg' rest' hdec'
    simp [readIteration, hdec, hdec']

/-- Witness for C1: the batch `[recordT1, recordT2]` arriving at an empty store. -/
theorem batch_head_policy_witness :
    readIteration exampleJSON memory.New 7 (.message ("[" ++ textT1 ++ "," ++ textT2 ++ "]"))
      = .next (memory.New.Set "current" textT1 (time.Minute * 5) 7) :=
  (batch_head_policy exampleJSON memory.New 7 ("[" ++ textT1 ++ "," ++ textT2 ++ "]")
    recordT1 [recordT2] textT1 (by decide) (by decide)).1

theorem readLoop_append (J : JSON) (pre suf : List (Nat × FeedEvent)) (store : memory.Storage)
    (hrun : (readLoop J store pre).done = false) :
    readLoop J store (pre ++ suf) = readLoop J (readLoop J store pre).store suf := by
  induction pre generalizing store with
  | nil => simp [readLoop]
  | cons head tail ih =>
    obtain ⟨now, ev⟩ := head
    simp only [List.cons_append, readLoop] at hrun ⊢
    cases hit : readIteration J store now ev with
    | next store' =>
      rw [hit] at hrun
      exact ih store' hrun
    | exit why =>
      rw [hit] at hrun
      simp at hrun
    | panic =>
      rw [hit] at hrun
      simp at hrun

/-- C7 (feed failure handling).  Let the loop have read the events `pre` and still
be running.  If the next event is a read failure, or a message that does not
decode as a sequence of records, the loop returns at that event: the store is
the one the loop had before the event, `done` is closed, the goroutine did not
panic, and every later event is left unread. -/
theorem feed_failure_terminates (J : JSON) (store : memory.Storage)
    (pre : List (Nat × FeedEvent)) (now : Nat) (ev : FeedEvent)
    (later : List (Nat × FeedEvent))
    (hrun : (readLoop J store pre).done = false)
    (hfail : (∃ err, ev = .readError err) ∨
      ∃ msg err, ev = .message msg ∧ J.UnmarshalBundles msg = .error err) :
    (∃ why, readIteration J (readLoop J store pre).store now ev = .exit why) ∧
      readLoop J store (pre ++ (now, ev) :: later)
        = ⟨(readLoop J store pre).store, true, false, later⟩ := by
  rw [readLoop_append J pre _ store hrun]
  rcases hfail with ⟨err, rfl⟩ | ⟨msg, err, rfl, hdec⟩
  · exact ⟨⟨_, rfl⟩, rfl⟩
  · refine ⟨⟨.parse err, ?_⟩, ?_⟩
    · simp [readIteration, hdec]
    · simp [readLoop, readIteration, hdec]

/-- Witness for C7: after one good message, an undecodable one ends the loop and
the good message behind it stays unread. -/
theorem feed_failure_terminates_witness :
    readLoop exampleJSON memory.New
        ([(3, .message ("[" ++ textT1 ++ "]"))] ++
          (4, .message "not json") :: [(5, .message ("[" ++ textT2 ++ "]"))])
      = ⟨memory.New.Set "current" textT1 (time.Minute * 5) 3, true, false,
          [(5, .message ("[" ++ textT2 ++ "]"))]⟩ :=
  (feed_failure_terminates exampleJSON memory.New [(3, .message ("[" ++ textT1 ++ "]"))] 4
    (.message "not json") [(5, .message ("[" ++ textT2 ++ "]"))] (by decide)
    (Or.inr ⟨"not json", "invalid character", rfl, by decide⟩)).2

/-- C10 (read-loop step safety), at the failing input.  When the inbound message
decodes without error to the empty sequence (the texts `[]` and `null`), the
pass evaluates `data[0]` on a slice of length 0: it panics, writes nothing and
does not return cleanly, and the goroutine takes the process down. -/
theorem empty_batch_panics (J : JSON) (store : memory.Storage) (now : Nat) (msg : Bytes)
    (later : List (Nat × FeedEvent))
    (hdec : J.UnmarshalBundles msg = .ok []) :
    readIteration J store now (.message msg) = .panic ∧
      (readLoop J store ((now, .message msg) :: later)).crashed = true := by
  have h : readIteration J store now (.message msg) = .panic := by
    simp [readIteration, hdec]
  exact ⟨h, by simp [readLoop, h]⟩

/-- Witness for C10: the message `[]` arriving at a store that holds `textT1`. -/
theorem empty_batch_panics_witness :
    readIteration exampleJSON (memory.New.Set "current" textT1 (time.Minute * 5) 3) 4
        (.message "[]") = .panic :=
  (empty_batch_panics exampleJSON (memory.New.Set "current" textT1 (time.Minute * 5) 3) 4
    "[]" [] (by decide)).1

/-! ## The query handler -/

/-- C2 (cache-miss shape).  Whenever `store.Get("current")` fails, or returns
bytes that do not decode as a record, the handler answers with status 500 and a
body that has an `error` and a `description` field, and the status is not a
success status.  The store before any write is such a state, at every instant. -/
theorem handleGet_cache_miss (J : JSON) (store : memory.Storage) (now : Nat)
    (hmiss : (∃ err, store.Get "current" now = .error err) ∨
      ∃ cached err, store.Get "current" now = .ok cached ∧
        J.UnmarshalBundle cached = .error err) :
    ((handleGet J store now).status = 500 ∧
      "error" ∈ (handleGet J store now).body.fieldNames ∧
      "description" ∈ (handleGet J store now).body.fieldNames ∧
      (handleGet J store now).isSuccess = false) ∧
    ∀ t, (handleGet J memory.New t).status = 500 ∧
      "error" ∈ (handleGet J memory.New t).body.fieldNames ∧
      "description" ∈ (handleGet J memory.New t).body.fieldNames ∧
      (handleGet J memory.New t).isSuccess = false := by
  constructor
  · rcases hmiss with ⟨err, hget⟩ | ⟨cached, err, hget, hdec⟩
    · simp [handleGet, hget, Body.fieldNames, Response.isSuccess]
    · simp [handleGet, hget, hdec, Body.fieldNames, Response.isSuccess]
  · intro t
    simp [handleGet, memory.Storage.Get, memory.New, Body.fieldNames, Response.isSuccess]

/-- Witness for C2: the store holds bytes that are not a record. -/
theorem handleGet_cache_miss_witness :
    (handleGet exampleJSON (memory.New.Set "current" "not json" (time.Minute * 5) 0) 1).status
      = 500 :=
  (handleGet_cache_miss exampleJSON (memory.New.Set "current" "not json" (time.Minute * 5) 0) 1
    (Or.inr ⟨"not json", "invalid character", by decide, by decide⟩)).1.1

/-- C3 (success response).  Let the feed deliver at instant `s` a message whose
first record is `R`, let `enc` be the encoding of `R` and let `enc` decode back
to `R`.  A query at any instant before `s + 5 min` is answered with the success
status and a body that carries `R` (time label and the five percentile fields)
together with the annotations block, whose `language` is `Go`; the block is the
same literal for every `R`. -/
theorem success_response (J : JSON) (store : memory.Storage) (s now : Nat) (msg : Bytes)
    (R : Bundle) (rest : List Bundle) (enc : Bytes)
    (hdec : J.UnmarshalBundles msg = .ok (R :: rest))
    (henc : J.Marshal R = .ok enc)
    (hback : J.UnmarshalBundle enc = .ok R)
    (hnow : now < s + time.Minute * 5) :
    ∃ store', readIteration J store s (.message msg) = .next store' ∧
      handleGet J store' now
        = ⟨200, .bundle ⟨R, ⟨"https://github.com/kyee-rs/fuji", "Dutch (@devkyee on TG)", "Go",
            "ws://bundles-api-rest.jito.wtf/api/v1/bundles/tip_stream"⟩⟩⟩ ∧
      (handleGet J store' now).isSuccess = true := by
  refine ⟨store.Set "current" enc (time.Minute * 5) s, ?_, ?_, ?_⟩
  · simp [readIteration, hdec, henc]
  · simp [handleGet, memory.Storage.Get_Set, hnow, hback, StatusOK]
  · simp [handleGet, memory.Storage.Get_Set, hnow, hback, StatusOK, Response.isSuccess]

/-- Witness for C3: scenario B, the record `T1` with values 1.0 to 5.0, queried
one second after it arrived. -/
theorem success_response_witness :
    ∃ store', readIteration exampleJSON memory.New 0 (.message ("[" ++ textT1 ++ "]"))
        = .next store' ∧
      handleGet exampleJSON store' time.Second
        = ⟨200, .bundle ⟨recordT1, ⟨"https://github.com/kyee-rs/fuji", "Dutch (@devkyee on TG)",
            "Go", "ws://bundles-api-rest.jito.wtf/api/v1/bundles/tip_stream"⟩⟩⟩ ∧
      (handleGet exampleJSON store' time.Second).isSuccess = true :=
  success_response exampleJSON memory.New 0 time.Second ("[" ++ textT1 ++ "]") recordT1 []
    textT1 (by decide) (by decide) (by decide) (by decide)

/-! ## The store as the read loop drives it -/

/-- C5 (TTL expiry).  Let a pass of the read loop at instant `s` write the payload
`enc`, whatever the store held before.  Then the entry under `"current"` expires
at `s + 5 min`, which is 300 seconds: a read at any instant before `s + 5 min`
returns `enc`, a read at `s + 5 min` or later is a miss, and both answers are
the same after any number of reclamation runs at instants up to the read. -/
theorem ttl_expiry (J : JSON) (store : memory.Storage) (s : Nat) (msg : Bytes)
    (R : Bundle) (rest : List Bundle) (enc : Bytes)
    (hdec : J.UnmarshalBundles msg = .ok (R :: rest))
    (henc : J.Marshal R = .ok enc) :
    ∃ store', readIteration J store s (.message msg) = .next store' ∧
      store'.entries.filter (fun e => e.key = "current")
        = [⟨"current", enc, s + 300 * time.Second⟩] ∧
      (∀ now, now < s + time.Minute * 5 → store'.Get "current" now = .ok enc) ∧
      (∀ now, s + time.Minute * 5 ≤ now →
        store'.Get "current" now = .error memory.ErrNotFound) ∧
      ∀ (gs : List Nat) (now : Nat), (∀ g ∈ gs, g ≤ now) →
        (gs.foldl memory.Storage.reclaim store').Get "current" now
          = store'.Get "current" now := by
  refine ⟨store.Set "current" enc (time.Minute * 5) s, ?_, ?_, ?_, ?_, ?_⟩
  · simp [readIteration, hdec, henc]
  · rw [memory.Storage.Set_filter]
    simp [time.Minute]
    omega
  · intro now hnow
    simp [memory.Storage.Get_Set, hnow]
  · intro now hnow
    have : ¬ now < s + time.Minute * 5 := by omega
    simp [memory.Storage.Get_Set, this]
  · intro gs now hg
    apply memory.Storage.Get_reclaims gs _ "current" now hg
    rw [memory.Storage.Set_filter]
    simp

/-- Witness for C5: a write at instant 10 over a store that already holds an
older entry. -/
theorem ttl_expiry_witness :
    ∃ store', readIteration exampleJSON (memory.New.Set "current" textT2 (time.Minute * 5) 2) 10
        (.message ("[" ++ textT1 ++ "]")) = .next store' ∧
      store'.entries.filter (fun e => e.key = "current")
        = [⟨"current", textT1, 10 + 300 * time.Second⟩] ∧
      (∀ now, now < 10 + time.Minute * 5 → store'.Get "current" now = .ok textT1) ∧
      (∀ now, 10 + time.Minute * 5 ≤ now →
        store'.Get "current" now = .error memory.ErrNotFound) ∧
      ∀ (gs : List Nat) (now : Nat), (∀ g ∈ gs, g ≤ now) →
        (gs.foldl memory.Storage.reclaim store').Get "current" now
          = store'.Get "current" now :=
  ttl_expiry exampleJSON (memory.New.Set "current" textT2 (time.Minute * 5) 2) 10
    ("[" ++ textT1 ++ "]") recordT1 [] textT1 (by decide) (by decide)

theorem readLoop_single_slot (J : JSON) (evs : List (Nat × FeedEvent))
    (store : memory.Storage)
    (hslot : store.entries = [] ∨ ∃ e, store.entries = [e] ∧ e.key = "current") :
    (readLoop J store evs).store.entries = [] ∨
      ∃ e, (readLoop J store evs).store.entries = [e] ∧ e.key = "current" := by
  induction evs generalizing store with
  | nil => simpa [readLoop] using hslot
  | cons head tail ih =>
    obtain ⟨now, ev⟩ := head
    simp only [readLoop]
    cases hit : readIteration J store now ev with
    | next store' =>
      apply ih
      right
      cases ev with
      | readError err => simp [readIteration] at hit
      | message m =>
        simp only [readIteration] at hit
        split at hit
        · simp at hit
        · split at hit
          · simp at hit
          · split at hit
            · simp at hit
            · rename_i bytes _
              simp only [Iteration.next.injEq] at hit
              subst hit
              rcases hslot with h | ⟨e, h, hk⟩
              · exact ⟨⟨"current", bytes, now + time.Minute * 5⟩,
                  by simp [memory.Storage.Set, h], rfl⟩
              · exact ⟨⟨"current", bytes, now + time.Minute * 5⟩,
                  by simp [memory.Storage.Set, h, hk], rfl⟩
    | exit why => simpa using hslot
    | panic => simpa using hslot

/-- C6 (single-slot overwrite).  When the loop processes two messages in
succession, with first records `A` then `B`, a read of `"current"` at any
instant within the TTL of the second write returns the encoding of `B`, and so
not the encoding of `A` when the two differ.  Started on the empty store of
`memory.New`, the loop never leaves more than one entry in the store, live or
not, whatever events it is fed. -/
theorem single_slot_overwrite (J : JSON) (store : memory.Storage) (s1 s2 now : Nat)
    (msgA msgB : Bytes) (A B : Bundle) (restA restB : List Bundle) (encA encB : Bytes)
    (hdecA : J.UnmarshalBundles msgA = .ok (A :: restA))
    (hencA : J.Marshal A = .ok encA)
    (hdecB : J.UnmarshalBundles msgB = .ok (B :: restB))
    (hencB : J.Marshal B = .ok encB)
    (hnow : now < s2 + time.Minute * 5) :
    (readLoop J store [(s1, .message msgA), (s2, .message msgB)]).store.Get "current" now
        = .ok encB ∧
      (encA ≠ encB →
        (readLoop J store [(s1, .message msgA), (s2, .message msgB)]).store.Get "current" now
          ≠ .ok encA) ∧
      ∀ (evs : List (Nat × FeedEvent)) (t : Nat),
        (readLoop J memory.New evs).store.entries.length ≤ 1 ∧
          ((readLoop J memory.New evs).store.live t).length ≤ 1 := by
  have hget : (readLoop J store [(s1, .message msgA), (s2, .message msgB)]).store.Get
      "current" now = .ok encB := by
    simp [readLoop, readIteration, hdecA, hencA, hdecB, hencB, memory.Storage.Get_Set, hnow]
  refine ⟨hget, ?_, ?_⟩
  · intro hne
    rw [hget]
    intro h
    exact hne (Except.ok.inj h).symm
  · intro evs t
    have hlen : (readLoop J memory.New evs).store.entries.length ≤ 1 := by
      rcases readLoop_single_slot J evs memory.New (Or.inl rfl) with h | ⟨e, h, _⟩
      · simp [h]
      · simp [h]
    exact ⟨hlen, le_trans (List.length_filter_le _ _) hlen⟩

/-- Witness for C6: `T1` at instant 1, then `T2` at instant 2, read at instant 3. -/
theorem single_slot_overwrite_witness :
    (readLoop exampleJSON memory.New
        [(1, .message ("[" ++ textT1 ++ "]")), (2, .message ("[" ++ textT2 ++ "]"))]).store.Get
      "current" 3 = .ok textT2 :=
  (single_slot_overwrite exampleJSON memory.New 1 2 3 ("[" ++ textT1 ++ "]")
    ("[" ++ textT2 ++ "]") recordT1 recordT2 [] [] textT1 textT2
    (by decide) (by decide) (by decide) (by decide) (by decide)).1

/-! ## The upstream address in the annotations -/

/-- C9 (the `subscribed_to` annotation).  Whatever the command line of the
process, every success response carries in `subscribed_to` the address the
subscriber dials, which is `ws://h/api/v1/bundles/tip_stream` for `h` the value
of the `addr` parameter.  That value is the default host on every command line,
because the flag is never parsed. -/
theorem subscribed_to_is_dialled (J : JSON) (store : memory.Storage) (now : Nat)
    (args : List String) (r : BundleResponse)
    (hok : (handleGet J store now).body = .bundle r) :
    r.Annotations.SubscribedTo = (dialURL args).String ∧
      (dialURL args).String = "ws://" ++ addrValue args ++ "/api/v1/bundles/tip_stream" ∧
      addrValue args = "bundles-api-rest.jito.wtf" := by
  have hfix : r.Annotations.SubscribedTo
      = "ws://bundles-api-rest.jito.wtf/api/v1/bundles/tip_stream" := by
    simp only [handleGet] at hok
    split at hok
    · simp at hok
    · split at hok
      · simp at hok
      · simp only [Body.bundle.injEq] at hok
        rw [← hok]
  have hdial : (dialURL args).String
      = "ws://bundles-api-rest.jito.wtf/api/v1/bundles/tip_stream" := by
    simp only [dialURL, addrValue]
    decide
  refine ⟨by rw [hfix, hdial], ?_, rfl⟩
  simp only [dialURL, addrValue]
  decide

/-- Witness for C9: the response for `T1` in a process started with
`-addr localhost:9000`, an argument the program does not read. -/
theorem subscribed_to_is_dialled_witness :
    (⟨recordT1, ⟨"https://github.com/kyee-rs/fuji", "Dutch (@devkyee on TG)", "Go",
        "ws://bundles-api-rest.jito.wtf/api/v1/bundles/tip_stream"⟩⟩
      : BundleResponse).Annotations.SubscribedTo
        = (dialURL ["fuji", "-addr", "localhost:9000"]).String :=
  (subscribed_to_is_dialled exampleJSON (memory.New.Set "current" textT1 (time.Minute * 5) 0) 1
    ["fuji", "-addr", "localhost:9000"]
    ⟨recordT1, ⟨"https://github.com/kyee-rs/fuji", "Dutch (@devkyee on TG)", "Go",
      "ws://bundles-api-rest.jito.wtf/api/v1/bundles/tip_stream"⟩⟩ (by decide)).1

/-! ## The lifecycle coordinator -/

theorem coordinator_stopped (evs : List (Nat × CoordEvent)) :
    (coordinator .Stopped evs).1 = .Stopped := by
  induction evs with
  | nil => rfl
  | cons head tail ih =>
    obtain ⟨t, ev⟩ := head
    simpa [coordinator, coordinatorStep] using ih

theorem coordinator_draining (evs : List (Nat × CoordEvent)) (deadline : Nat) :
    (coordinator (.Draining deadline) evs).1 = .Draining deadline ∨
      (coordinator (.Draining deadline) evs).1 = .Stopped := by
  induction evs with
  | nil => exact Or.inl rfl
  | cons head tail ih =>
    obtain ⟨t, ev⟩ := head
    cases ev with
    | done => exact Or.inr (by simpa [coordinator, coordinatorStep] using coordinator_stopped tail)
    | interrupt w => simpa [coordinator, coordinatorStep] using ih
    | timeout =>
      by_cases hdue : deadline ≤ t
      · exact Or.inr
          (by simpa [coordinator, coordinatorStep, hdue] using coordinator_stopped tail)
      · simpa [coordinator, coordinatorStep, hdue] using ih

theorem coordinator_append (s : CoordState) (evs evs' : List (Nat × CoordEvent)) :
    (coordinator s (evs ++ evs')).1 = (coordinator (coordinator s evs).1 evs').1 := by
  induction evs generalizing s with
  | nil => rfl
  | cons head tail ih =>
    obtain ⟨t, ev⟩ := head
    simp only [List.cons_append, coordinator]
    exact ih _

theorem coordinator_stopped_run (evs : List (Nat × CoordEvent)) :
    coordinator .Stopped evs = (.Stopped, []) := by
  induction evs with
  | nil => rfl
  | cons head tail ih =>
    obtain ⟨t, ev⟩ := head
    simp [coordinator, coordinatorStep, ih]

theorem coordinator_draining_quiet (evs : List (Nat × CoordEvent)) (deadline : Nat)
    (hquiet : ∀ p ∈ evs, p.2 ≠ .done ∧ (p.2 = .timeout → p.1 < deadline)) :
    coordinator (.Draining deadline) evs = (.Draining deadline, []) := by
  induction evs with
  | nil => rfl
  | cons head tail ih =>
    obtain ⟨t, ev⟩ := head
    have hhead := hquiet (t, ev) (List.mem_cons_self _ _)
    have htail := ih (fun p hp => hquiet p (List.mem_cons_of_mem _ hp))
    cases ev with
    | done => exact absurd rfl hhead.1
    | interrupt w => simp [coordinator, coordinatorStep, htail]
    | timeout =>
      have hearly : ¬ deadline ≤ t := Nat.not_le.mpr (hhead.2 rfl)
      simp [coordinator, coordinatorStep, hearly, htail]

theorem coordinator_append_run (s : CoordState) (evs evs' : List (Nat × CoordEvent)) :
    coordinator s (evs ++ evs')
      = ((coordinator (coordinator s evs).1 evs').1,
          (coordinator s evs).2 ++ (coordinator (coordinator s evs).1 evs').2) := by
  induction evs generalizing s with
  | nil => simp [coordinator]
  | cons head tail ih =>
    obtain ⟨t, ev⟩ := head
    rw [List.cons_append]
    simp only [coordinator]
    rw [ih]
    simp [List.append_assoc]

/-- C8 (interrupt-triggered drain).  From `Running`, an interrupt at instant `now`
makes the coordinator log it and send the close message before anything else.
If the send fails, the run is `Stopped` at once, whatever comes later, having
logged, sent and logged the failure.  If the send succeeds, the run is
`Draining` with the timer set to `now + 1 s` and stays so, taking no action,
through every wake-up that is neither the closing of `done` nor the timer
firing at or after its deadline; the first wake-up that is one of those two
takes it to `Stopped`, and the only actions of the whole run are the log line
and the one close message.  So the run is `Stopped` once the timer has fired,
with or without a termination signal; `Stopped` is never left, and after the
interrupt the coordinator is never `Running` again. -/
theorem interrupt_drain (now : Nat) (writeErr : Option String) :
    (∃ more, (coordinatorStep now .Running (.interrupt writeErr)).2
        = .logInterrupt :: .writeClose :: more) ∧
      (∀ err, writeErr = some err →
        (coordinatorStep now .Running (.interrupt writeErr)).1 = .Stopped) ∧
      (∀ (err : String) (later : List (Nat × CoordEvent)),
        coordinator .Running ((now, .interrupt (some err)) :: later)
          = (.Stopped, [.logInterrupt, .writeClose, .logWriteClose err])) ∧
      (writeErr = none →
        (coordinatorStep now .Running (.interrupt writeErr)).1
          = .Draining (now + time.Second)) ∧
      (∀ (evs : List (Nat × CoordEvent)),
        (∀ p ∈ evs, p.2 ≠ .done ∧ (p.2 = .timeout → p.1 < now + time.Second)) →
          coordinator .Running ((now, .interrupt none) :: evs)
            = (.Draining (now + time.Second), [.logInterrupt, .writeClose])) ∧
      (∀ (evs : List (Nat × CoordEvent)) (t : Nat) (ev : CoordEvent)
          (later : List (Nat × CoordEvent)),
        (∀ p ∈ evs, p.2 ≠ .done ∧ (p.2 = .timeout → p.1 < now + time.Second)) →
        ev = .done ∨ (ev = .timeout ∧ now + time.Second ≤ t) →
          coordinator .Running ((now, .interrupt none) :: (evs ++ (t, ev) :: later))
            = (.Stopped, [.logInterrupt, .writeClose])) ∧
      (∀ (t : Nat) (ev : CoordEvent) (later : List (Nat × CoordEvent)),
        ev = .done ∨ (ev = .timeout ∧ now + time.Second ≤ t) →
          (coordinator (.Draining (now + time.Second)) ((t, ev) :: later)).1 = .Stopped) ∧
      (∀ (evs later : List (Nat × CoordEvent)) (t : Nat), now + time.Second ≤ t →
        (coordinator .Running
          ((now, .interrupt writeErr) :: (evs ++ (t, .timeout) :: later))).1 = .Stopped) ∧
      (∀ evs, (coordinator .Stopped evs).1 = .Stopped) ∧
      ∀ evs, (coordinator .Running ((now, .interrupt writeErr) :: evs)).1 ≠ .Running := by
  refine ⟨?_, ?_, ?_, ?_, ?_, ?_, ?_, ?_, coordinator_stopped, ?_⟩
  · cases writeErr with
    | none => exact ⟨[], rfl⟩
    | some err => exact ⟨[.logWriteClose err], rfl⟩
  · rintro err rfl
    rfl
  · intro err later
    simp [coordinator, coordinatorStep, coordinator_stopped_run]
  · rintro rfl
    rfl
  · intro evs hquiet
    simp [coordinator, coordinatorStep, coordinator_draining_quiet evs _ hquiet]
  · intro evs t ev later hquiet hwake
    have hstop : coordinator (.Draining (now + time.Second)) ((t, ev) :: later)
        = (.Stopped, []) := by
      rcases hwake with rfl | ⟨rfl, hdue⟩
      · simp [coordinator, coordinatorStep, coordinator_stopped_run]
      · simp [coordinator, coordinatorStep, hdue, coordinator_stopped_run]
    have hrun : coordinator .Running ((now, .interrupt none) :: evs)
        = (.Draining (now + time.Second), [.logInterrupt, .writeClose]) := by
      simp [coordinator, coordinatorStep, coordinator_draining_quiet evs _ hquiet]
    rw [← List.cons_append, coordinator_append_run]
    simp [hrun, hstop]
  · rintro t ev later (rfl | ⟨rfl, hdue⟩)
    · simpa [coordinator, coordinatorStep] using coordinator_stopped later
    · simpa [coordinator, coordinatorStep, hdue] using coordinator_stopped later
  · intro evs later t hdue
    cases writeErr with
    | some err => simpa [coordinator, coordinatorStep] using coordinator_stopped _
    | none =>
      simp only [coordinator, coordinatorStep]
      rw [coordinator_append]
      rcases coordinator_draining evs (now + time.Second) with h | h
      · rw [h]
        simpa [coordinator, coordinatorStep, hdue] using coordinator_stopped later
      · rw [h]
        exact coordinator_stopped _
  · intro evs
    cases writeErr with
    | some err =>
      have := coordinator_stopped evs
      simp only [coordinator, coordinatorStep]
      rw [this]
      simp
    | none =>
      simp only [coordinator, coordinatorStep]
      rcases coordinator_draining evs (now + time.Second) with h | h <;> rw [h] <;> simp

/-- An instance of C8: an interrupt at instant 5 whose close message is sent, a
second interrupt and an early timer wake-up that change nothing, then the timer
firing one second after the interrupt, with `done` closing only afterwards. -/
theorem interrupt_drain_witness :
    coordinator .Running
        ((5, .interrupt none) ::
          ([(6, .interrupt none), (7, .timeout)] ++
            (5 + time.Second, .timeout) :: [(6 + time.Second, .done)]))
      = (.Stopped, [.logInterrupt, .writeClose]) :=
  (interrupt_drain 5 none).2.2.2.2.2.1 [(6, .interrupt none), (7, .timeout)]
    (5 + time.Second) .timeout [(6 + time.Second, .done)] (by decide)
    (Or.inr ⟨rfl, le_refl _⟩)

end Fuji
